import Mathlib

/-!
Shallow embedding of the iox library (bufferfile.go, the Filer source, and
webfetch/webfetch.go) together with theorems checking its natural-language
specification.

Conventions of the embedding:
* Byte sequences are `List Nat`; Go `int`/`int64` quantities that can be
  negative are `Int`, non-negative sizes are `Nat`.  No claim exercises
  machine-word overflow, so the unbounded types are used directly.
* The spill file behind a BufferFile is a POSIX-style in-memory file
  (`SpillFile`): reads, writes and seeks on it always succeed, matching the
  spec's assumption that raw filesystem primitives behave per POSIX.
* A Go method call on a nil pointer is represented by `GoResult.nilDeref`
  (a run-time panic); all other outcomes are `GoResult.ok`.
-/

namespace Iox

/-- Error values distinguished by the library: `io.EOF`, `os.ErrClosed`
(the spec's AlreadyClosed), the negative-seek error of BufferFile.Seek,
`context.Canceled`, and opaque I/O errors carrying a code. -/
inductive Err where
  | eof
  | alreadyClosed
  | negativeSeek
  | canceled
  | ioError (code : Nat)
  deriving DecidableEq, Repr

/-- Outcome of running a piece of Go code: either a value, or a run-time
panic caused by a method call on a nil pointer. -/
inductive GoResult (α : Type) where
  | ok : α → GoResult α
  | nilDeref : GoResult α
  deriving DecidableEq, Repr

/-- POSIX-style model of the temporary file backing a BufferFile:
its contents and its current position. -/
structure SpillFile where
  data : List Nat
  pos : Nat
  deriving DecidableEq, Repr

/-- Overwrite `buf` starting at index `i` with `p` (Go's `copy(buf[i:], p)`
when `p` fits, which is how BufferFile.Write calls it). -/
def listCopyAt (buf : List Nat) (i : Nat) (p : List Nat) : List Nat :=
  buf.take i ++ p ++ buf.drop (i + p.length)

/-- Embeds a write on the spill file at its current position, zero-padding
any gap left by a seek past the end; returns the bytes written. -/
def SpillFile.write (f : SpillFile) (p : List Nat) : SpillFile × Nat :=
  let padded := f.data ++ List.replicate (f.pos - f.data.length) 0
  ({ data := padded.take f.pos ++ p ++ padded.drop (f.pos + p.length),
     pos := f.pos + p.length }, p.length)

/-- Embeds a read of up to `n` bytes from the spill file at its current
position; at end of file a non-empty read reports `io.EOF`. -/
def SpillFile.read (f : SpillFile) (n : Nat) : SpillFile × List Nat × Option Err :=
  if f.data.length ≤ f.pos ∧ 0 < n then (f, [], some .eof)
  else
    let bytes := (f.data.drop f.pos).take n
    ({ f with pos := f.pos + bytes.length }, bytes, none)

/-- Embeds an absolute seek (`os.SEEK_SET`) on the spill file, the only
whence BufferFile uses on it. -/
def SpillFile.seek (f : SpillFile) (offset : Int) : SpillFile × Int :=
  ({ f with pos := offset.toNat }, offset)

/-- State of a BufferFile (bufferfile.go): sticky error, memory cap
`bufMax`, in-memory prefix `buf`, optional spill file `f`, spill length
`flen`, and logical position `off`. -/
structure BufferFile where
  err : Option Err
  bufMax : Nat
  buf : List Nat
  f : Option SpillFile
  flen : Int
  off : Int
  deriving DecidableEq, Repr

/-- Embeds Filer.BufferFile: a fresh BufferFile whose memory cap defaults
to 1 << 16 when `memSize` is 0. -/
def mkBufferFile (memSize : Nat) : BufferFile :=
  let m := if memSize = 0 then 65536 else memSize
  { err := none, bufMax := m, buf := [], f := none, flen := 0, off := 0 }

/-- Embeds BufferFile.ensureFile.  Filer.TempFile is modelled as always
succeeding (the POSIX model has no failing opens here), so no error is
recorded. -/
def BufferFile.ensureFile (bf : BufferFile) : BufferFile :=
  match bf.f with
  | some _ => bf
  | none => { bf with f := some { data := [], pos := 0 } }

/-- Embeds BufferFile.Write.  Mirrors the source line by line: the sticky
error short-circuits; the grow step computes `growTo` from the named
result `n` (still 0 at that point); the spill file is ensured when the
final offset reaches `bufMax`; the in-memory region is overwritten; any
remainder goes to the spill file, which is a nil-pointer dereference when
no spill file exists. -/
def BufferFile.write (bf0 : BufferFile) (p : List Nat) :
    GoResult (BufferFile × Nat × Option Err) :=
  match bf0.err with
  | some e => .ok (bf0, 0, some e)
  | none =>
    let finalOff : Int := bf0.off + (p.length : Int)
    let bf1 :=
      if finalOff > (bf0.buf.length : Int) ∧ bf0.buf.length < bf0.bufMax then
        let growTo : Int := (0 : Int)
        let growTo2 := if growTo > (bf0.bufMax : Int) then (bf0.bufMax : Int) else growTo
        { bf0 with buf := bf0.buf ++ List.replicate (growTo2.toNat - bf0.buf.length) 0 }
      else bf0
    let bf2 := if finalOff ≥ (bf1.bufMax : Int) then bf1.ensureFile else bf1
    let step :=
      if bf2.off < (bf2.buf.length : Int) then
        let n := min (bf2.buf.length - bf2.off.toNat) p.length
        ({ bf2 with buf := listCopyAt bf2.buf bf2.off.toNat (p.take n),
                    off := bf2.off + (n : Int) }, n, p.drop n)
      else (bf2, 0, p)
    match step with
    | (bf3, n, rest) =>
      if rest.isEmpty then .ok (bf3, n, none)
      else
        match bf3.f with
        | none => .nilDeref
        | some sf =>
          let wr := sf.write rest
          let bf4 := { bf3 with f := some wr.1, err := none,
                                off := bf3.off + (wr.2 : Int) }
          let bf5 :=
            if bf4.off - (bf4.buf.length : Int) > bf4.flen then
              { bf4 with flen := bf4.off - (bf4.buf.length : Int) }
            else bf4
          .ok (bf5, n + wr.2, none)

/-- Embeds BufferFile.Read for a destination of capacity `plen`: the
sticky error short-circuits; inside the memory region one call returns at
most the memory remainder; with no spill file the read reports EOF;
otherwise the spill file is read and only non-EOF errors become sticky. -/
def BufferFile.read (bf : BufferFile) (plen : Nat) :
    GoResult (BufferFile × List Nat × Option Err) :=
  match bf.err with
  | some e => .ok (bf, [], some e)
  | none =>
    if bf.off < (bf.buf.length : Int) then
      let bytes := (bf.buf.drop bf.off.toNat).take plen
      .ok ({ bf with off := bf.off + (bytes.length : Int) }, bytes, none)
    else
      match bf.f with
      | none => .ok (bf, [], some .eof)
      | some sf =>
        let rd := sf.read plen
        let bf2 := { bf with f := some rd.1, off := bf.off + (rd.2.1.length : Int) }
        let bf3 := if rd.2.2 ≠ some .eof then { bf2 with err := rd.2.2 } else bf2
        .ok (bf3, rd.2.1, rd.2.2)

/-- Embeds BufferFile.Seek: whence translation, the negative-offset error
(returned but not made sticky), lazy spill creation when the target
exceeds `bufMax`, then positioning of the spill file — the branch for a
target at or past the memory region dereferences the spill-file pointer
without a nil check, exactly as the source does. -/
def BufferFile.seek (bf : BufferFile) (offset0 : Int) (whence : Nat) :
    GoResult (BufferFile × Int × Option Err) :=
  match bf.err with
  | some e => .ok (bf, 0, some e)
  | none =>
    let offset :=
      match whence with
      | 1 => offset0 + bf.off
      | 2 => offset0 + (bf.buf.length : Int) + bf.flen
      | _ => offset0
    if offset < 0 then .ok (bf, -1, some .negativeSeek)
    else
      let bf1 := if offset > (bf.bufMax : Int) then bf.ensureFile else bf
      if offset < (bf1.buf.length : Int) then
        match bf1.f with
        | some sf =>
          let sk := sf.seek 0
          .ok ({ bf1 with f := some sk.1, err := none, off := offset }, offset, none)
        | none => .ok ({ bf1 with off := offset }, offset, none)
      else
        match bf1.f with
        | none => .nilDeref
        | some sf =>
          let sk := sf.seek (offset - (bf1.buf.length : Int))
          .ok ({ bf1 with f := some sk.1, err := none, off := offset }, offset, none)

/-- Embeds BufferFile.Close: close and drop the spill file (closing it
always succeeds in the POSIX model); a close error would become sticky;
otherwise the sticky slot is set to AlreadyClosed only when it was
empty. -/
def BufferFile.close (bf : BufferFile) : BufferFile × Option Err :=
  let first :=
    match bf.f with
    | some _ => (({ bf with f := none } : BufferFile), (none : Option Err))
    | none => (bf, (none : Option Err))
  match first with
  | (bf1, cerr) =>
    match cerr with
    | some e => ({ bf1 with err := some e }, some e)
    | none =>
      if bf1.err = none then ({ bf1 with err := some .alreadyClosed }, none)
      else (bf1, none)

/-! Filer (the unnamed filer source file): fd-limit computation, admission
tokens of the open operations, and the temp-name generator. -/

/-- Result of `syscall.Getrlimit(RLIMIT_NOFILE, ...)`: soft (`Cur`) and
hard (`Max`) limits.  A failed query leaves both fields zero. -/
structure Rlimit where
  cur : Nat
  max : Nat
  deriving DecidableEq, Repr

/-- Embeds the fdLimit computation of NewFiler: when the argument is 0 it
is recomputed from the rlimit as `lim.Max - lim.Max/10`, and if that is
still 0 the guess 90 is used. -/
def newFilerFdLimit (fdLimit : Int) (lim : Rlimit) : Int :=
  let fd1 := if fdLimit = 0 then (lim.max : Int) - (lim.max : Int) / 10 else fdLimit
  if fd1 = 0 then 90 else fd1

/-- Admission state of a Filer: the number of tokens currently held
(sends into the `limiter` channel minus receives from it). -/
structure FilerTokens where
  tokens : Nat
  deriving DecidableEq, Repr

/-- Embeds Filer.Open: acquire a token, attempt the OS open (its outcome
is the parameter `osOk`), and release the token when the open failed. -/
def filerOpen (st : FilerTokens) (osOk : Bool) : FilerTokens × Bool :=
  let st1 : FilerTokens := { tokens := st.tokens + 1 }
  if osOk then (st1, true) else ({ tokens := st1.tokens - 1 }, false)

/-- Embeds Filer.OpenFile, whose admission handling is identical to
Filer.Open. -/
def filerOpenFile (st : FilerTokens) (osOk : Bool) : FilerTokens × Bool :=
  let st1 : FilerTokens := { tokens := st.tokens + 1 }
  if osOk then (st1, true) else ({ tokens := st1.tokens - 1 }, false)

/-- Outcome of one create-exclusive open attempt inside Filer.TempFile:
success, a name collision (`os.IsExist`), or any other failure. -/
inductive OpenRes where
  | ok
  | exist
  | fail
  deriving DecidableEq, Repr

/-- Embeds the retry loop of Filer.TempFile: attempt `i` is retried only
on a name collision, at most `fuel` (initially 1000) attempts in total;
the value is the error state after the loop. -/
def tempFileLoop (attempt : Nat → OpenRes) : Nat → Nat → OpenRes
  | _, 0 => .exist
  | i, fuel + 1 =>
    match attempt i with
    | .exist => tempFileLoop attempt (i + 1) fuel
    | r => r

/-- Embeds the admission handling of Filer.TempFile: a token is acquired
on entry, and the failure path returns without releasing it. -/
def filerTempFile (st : FilerTokens) (attempt : Nat → OpenRes) : FilerTokens × Bool :=
  let st1 : FilerTokens := { tokens := st.tokens + 1 }
  match tempFileLoop attempt 0 1000 with
  | .ok => (st1, true)
  | _ => (st1, false)

/-- State of the temp-name generator of Filer.rand: the current seed and
the draw counter `seq` (a field the source never writes). -/
structure RandState where
  seed : Nat
  seq : Int
  deriving DecidableEq, Repr

/-- The Park-Miller modulus 2^31 - 1 of Filer.rand. -/
def pmMod : Nat := 0x7fffffff

/-- The reseed condition of Filer.rand's loop: seed 0, seed at or above
the modulus, or more than 100 sequential draws. -/
def reseedNeeded (st : RandState) : Bool :=
  st.seed == 0 || decide (pmMod ≤ st.seed) || decide ((100 : Int) < st.seq)

/-- Embeds the reseed loop of Filer.rand.  `fresh k` models the k-th draw
of `uint32(time.Now().UnixNano() + pid)`; the loop body only reassigns
the seed, so a `fuel` bound is imposed (the source itself has none) and
`none` reports that the loop did not finish within it.  Returns the
stabilised state and how many reseeds happened. -/
def randLoop (fresh : Nat → Nat) : Nat → Nat → RandState → Option (RandState × Nat)
  | 0, k, st => if reseedNeeded st then none else some (st, k)
  | fuel + 1, k, st =>
    if reseedNeeded st then
      randLoop fresh fuel (k + 1) { st with seed := fresh k % 4294967296 }
    else some (st, k)

/-- Embeds one call of Filer.rand: run the reseed loop, then produce the
Park-Miller step `v = seed * 48271 % (2^31 - 1)` and store it back as the
seed.  Returns the new state, the value drawn, and the reseed count. -/
def randCall (fresh : Nat → Nat) (fuel : Nat) (st : RandState) :
    Option (RandState × Nat × Nat) :=
  match randLoop fresh fuel 0 st with
  | none => none
  | some (st1, k) =>
    let v := st1.seed * 48271 % pmMod
    some ({ st1 with seed := v }, v, k)

/-- Runs `n` successive calls of Filer.rand and totals the reseeds that
occurred across them. -/
def randDraws (fresh : Nat → Nat) (fuel : Nat) : Nat → RandState → Option (RandState × Nat)
  | 0, st => some (st, 0)
  | n + 1, st =>
    match randCall fresh fuel st with
    | none => none
    | some (st1, _, k) =>
      match randDraws fresh fuel n st1 with
      | none => none
      | some (st2, total) => some (st2, k + total)

/-! webfetch/webfetch.go: the response constructed for a waiter, the
single-flight registry step of Client.Do, and body-close cleanup. -/

/-- Model of Go's `http.Response` as far as the library touches it:
status code, header map (`none` is Go's nil map, the zero value), the
attached request (by identifier), and the section of the BufferFile the
body reads.  The field defaults are the Go zero value. -/
structure GoResponse where
  statusCode : Nat := 0
  header : Option (List (Nat × Nat)) := none
  request : Option Nat := none
  bodyLo : Int := 0
  bodyHi : Int := 0
  deriving DecidableEq, Repr

/-- Embeds fetcher.response: a terminal error is returned to the caller
(after reqCleanup); otherwise the base response is the recorded HTTP
response, or the zero `http.Response` after a cache hit (the source's
cache-hit branch assigns nothing); the caller's request is attached and
the body is a section reader over the BufferFile from 0 to its length. -/
def fetcherResponse (ferr : Option Err) (fres : Option GoResponse) (fLen : Int)
    (reqId : Nat) : Except Err GoResponse :=
  match ferr with
  | some e => .error e
  | none =>
    let res : GoResponse :=
      match fres with
      | none => {}
      | some r => r
    .ok { res with request := some reqId, bodyLo := 0, bodyHi := fLen }

/-- The fetcher registry of a Client: entries are (url key, fetcher
identifier, waiter count `reqs`); `nextId` numbers the BufferFile-owning
fetchers as they are allocated. -/
structure Registry where
  entries : List (Nat × Nat × Nat)
  nextId : Nat
  deriving DecidableEq, Repr

/-- Lookup of `c.fetchers[url]` in the registry model. -/
def regFind : List (Nat × Nat × Nat) → Nat → Option (Nat × Nat)
  | [], _ => none
  | (u, fid, r) :: es, url =>
    if u = url then some (fid, r) else regFind es url

/-- The `f.reqs++` step on the registry entry of `url`. -/
def regIncr : List (Nat × Nat × Nat) → Nat → List (Nat × Nat × Nat)
  | [], _ => []
  | (u, fid, r) :: es, url =>
    if u = url then (u, fid, r + 1) :: es else (u, fid, r) :: regIncr es url

/-- Embeds the mutex-guarded registry step of Client.Do: an existing
fetcher for the url gets `reqs++`; otherwise a fetcher with `reqs = 1`
and a fresh BufferFile is recorded and its fetch task launched.  Returns
the identifier of the fetcher the caller waits on and whether this call
created it (and hence launched a fetch task). -/
def doLocked (st : Registry) (url : Nat) : Registry × Nat × Bool :=
  match regFind st.entries url with
  | some (fid, _) => ({ st with entries := regIncr st.entries url }, fid, false)
  | none =>
    ({ entries := (url, st.nextId, 1) :: st.entries, nextId := st.nextId + 1 },
     st.nextId, true)

/-- A sequence of `n` Client.Do registry steps for the same url, in the
order the registry mutex serialises them.  Returns the final registry,
the fetcher identifier each caller got, and how many fetch tasks were
launched. -/
def doN (st : Registry) (url : Nat) : Nat → Registry × List Nat × Nat
  | 0 => (st, [], 0)
  | n + 1 =>
    let first := doLocked st url
    let rest := doN first.1 url n
    (rest.1, first.2.1 :: rest.2.1, (if first.2.2 then 1 else 0) + rest.2.2)

/-- How fetcher.fetch finished its cache phase: cache callbacks unset, a
hit, a miss, or a CacheGet error. -/
inductive CacheOutcome where
  | disabled
  | hit
  | miss
  | errored
  deriving DecidableEq, Repr

/-- Embeds the control flow of fetcher.fetch: a cache hit or a CacheGet
error closes `done` and returns before the transport; on a miss or with
the cache disabled, `c.Client.Do` is called exactly once. -/
def fetchTransportCalls : CacheOutcome → Nat
  | .hit => 0
  | .errored => 0
  | _ => 1

/-- Transport invocations during one coalescing window: each created
fetcher runs fetch once (`go f.fetch(req)` at creation), and each run
makes `fetchTransportCalls` calls. -/
def episodeTransportCalls (creations : Nat) (o : CacheOutcome) : Nat :=
  creations * fetchTransportCalls o

/-- State touched by closing one response body: whether `frc.f` is still
set, the fetcher's waiter count `reqs` (a Go int), whether its BufferFile
has been closed, whether it is still registered, the number of other
registered fetchers, and the shutdown / shutdown-done flags. -/
structure FetchCloseState where
  attached : Bool
  reqs : Int
  bfClosed : Bool
  inRegistry : Bool
  others : Nat
  shutdown : Bool
  shutdownDone : Bool
  deriving DecidableEq, Repr

/-- Embeds fetcher.reqCleanupLocked: nothing happens while `reqs` is
non-zero; at zero the BufferFile is closed, the fetcher leaves the
registry, and if the registry became empty under a begun shutdown the
shutdown-done channel is closed. -/
def reqCleanupLocked (st : FetchCloseState) : FetchCloseState :=
  if st.reqs = 0 then
    let st1 := { st with bfClosed := true, inRegistry := false }
    if st1.others = 0 ∧ st1.shutdown then { st1 with shutdownDone := true }
    else st1
  else st

/-- Embeds fetcher.reqCleanup: a zero `reqs` (forced shutdown already ran)
reports Canceled; otherwise `reqs` is decremented and reqCleanupLocked
runs. -/
def reqCleanup (st : FetchCloseState) : FetchCloseState × Option Err :=
  if st.reqs = 0 then (st, some .canceled)
  else (reqCleanupLocked { st with reqs := st.reqs - 1 }, none)

/-- Embeds fetchReadCloser.Close: cleanup runs only while `frc.f` is set,
and the field is cleared so later closes return nil. -/
def frcClose (st : FetchCloseState) : FetchCloseState × Option Err :=
  if st.attached then
    let r := reqCleanup st
    ({ r.1 with attached := false }, r.2)
  else (st, none)

/-! Helper lemmas about the sticky error of a BufferFile. -/

theorem BufferFile.read_sticky (bf : BufferFile) (e : Err) (h : bf.err = some e)
    (n : Nat) : bf.read n = .ok (bf, [], some e) := by
  simp [BufferFile.read, h]

theorem BufferFile.write_sticky (bf : BufferFile) (e : Err) (h : bf.err = some e)
    (p : List Nat) : bf.write p = .ok (bf, 0, some e) := by
  simp [BufferFile.write, h]

theorem BufferFile.seek_sticky (bf : BufferFile) (e : Err) (h : bf.err = some e)
    (off : Int) (whence : Nat) : bf.seek off whence = .ok (bf, 0, some e) := by
  simp [BufferFile.seek, h]

theorem BufferFile.close_err_none (bf : BufferFile) (h : bf.err = none) :
    bf.close = ({ bf with f := none, err := some Err.alreadyClosed }, none) := by
  cases hf : bf.f <;> simp [BufferFile.close, hf, h]

theorem BufferFile.close_err_some (bf : BufferFile) (e : Err) (h : bf.err = some e) :
    bf.close = ({ bf with f := none }, none) := by
  obtain ⟨err, bufMax, buf, f, flen, off⟩ := bf
  subst h
  cases f <;> rfl

/-- Claim C1: the spill round-trip is claimed for every byte sequence and
every memory cap, but the code evaluated at a five-byte write into a
fresh BufferFile with the default cap dereferences the nil spill-file
pointer: the grow step computes its target from the still-zero named
result `n`, so the memory buffer stays empty and the write falls through
to `bf.f.Write` with `bf.f == nil`. -/
theorem write_small_payload_nilDeref :
    BufferFile.write (mkBufferFile 0) [104, 101, 108, 108, 111] = GoResult.nilDeref := by
  rfl

/-- Claim C2: with `off = 0`, `p = [7, 7, 7]` and `bufMax = 2`, the claim
requires the memory buffer to grow to `min(end, bufMax) = 2` with the
leading bytes of `p` copied in; the code instead leaves the buffer empty
(the grow target is computed from the yet-unassigned result `n`, which is
0) and sends all three bytes to the spill file. -/
theorem write_does_not_grow_buffer :
    BufferFile.write (mkBufferFile 2) [7, 7, 7] =
      GoResult.ok ({ err := none, bufMax := 2, buf := [],
                     f := some { data := [7, 7, 7], pos := 3 }, flen := 3, off := 3 },
                   3, none) := by
  rfl

/-- Claim C3: seeking a fresh BufferFile to 0 from the start is claimed
to succeed and return 0 without materialising the spill file; the code
takes the branch for targets at or past the memory region (the empty
buffer) and calls Seek on the nil spill-file pointer. -/
theorem fresh_seek_nilDeref :
    BufferFile.seek (mkBufferFile 4096) 0 0 = GoResult.nilDeref := by
  rfl

/-- Claim C4 counterexample: on a BufferFile carrying a sticky I/O error,
Close leaves the sticky error unchanged instead of replacing it with
AlreadyClosed, so the claim's "regardless of whether a sticky I/O error
was recorded before" fails at this input. -/
theorem close_keeps_prior_sticky_error :
    (BufferFile.close { err := some (Err.ioError 3), bufMax := 16, buf := [1],
                        f := none, flen := 0, off := 0 }).1.err
      ≠ some Err.alreadyClosed := by
  decide

/-- Claim C4 (amended): after Close returns, if no sticky error had been
recorded (the spill close succeeds in the POSIX model), the sticky error
is AlreadyClosed and every subsequent Read, Write or Seek returns
AlreadyClosed; if a sticky error had been recorded, Close preserves it
(still returning nil) and subsequent operations keep returning that
error. -/
theorem close_sticky_behaviour (bf : BufferFile) :
    (bf.err = none →
      (bf.close.1.err = some Err.alreadyClosed
       ∧ bf.close.1.read 1 = .ok (bf.close.1, [], some Err.alreadyClosed)
       ∧ bf.close.1.write [0] = .ok (bf.close.1, 0, some Err.alreadyClosed)
       ∧ bf.close.1.seek 0 0 = .ok (bf.close.1, 0, some Err.alreadyClosed)
       ∧ bf.close.2 = none))
    ∧ (∀ e, bf.err = some e →
      (bf.close.1.err = some e
       ∧ bf.close.1.read 1 = .ok (bf.close.1, [], some e)
       ∧ bf.close.1.write [0] = .ok (bf.close.1, 0, some e)
       ∧ bf.close.1.seek 0 0 = .ok (bf.close.1, 0, some e)
       ∧ bf.close.2 = none)) := by
  constructor
  · intro h
    have hc := BufferFile.close_err_none bf h
    have herr : bf.close.1.err = some Err.alreadyClosed := by rw [hc]
    exact ⟨herr, BufferFile.read_sticky _ _ herr 1, BufferFile.write_sticky _ _ herr [0],
      BufferFile.seek_sticky _ _ herr 0 0, by rw [hc]⟩
  · intro e h
    have hc := BufferFile.close_err_some bf e h
    have herr : bf.close.1.err = some e := by rw [hc]; exact h
    exact ⟨herr, BufferFile.read_sticky _ _ herr 1, BufferFile.write_sticky _ _ herr [0],
      BufferFile.seek_sticky _ _ herr 0 0, by rw [hc]⟩

/-- Witness for the amended C4 theorem at two concrete BufferFiles, one
clean and one carrying a sticky I/O error. -/
theorem close_sticky_behaviour_witness :
    (mkBufferFile 8).close.1.err = some Err.alreadyClosed
    ∧ ({ mkBufferFile 8 with err := some (Err.ioError 3) } : BufferFile).close.1.err
        = some (Err.ioError 3) :=
  ⟨((close_sticky_behaviour (mkBufferFile 8)).1 rfl).1,
   ((close_sticky_behaviour { mkBufferFile 8 with err := some (Err.ioError 3) }).2
      (Err.ioError 3) rfl).1⟩

/-- Claim C5: with the argument 0 and rlimit soft 100 / hard 200, the
code computes the pool capacity 180 from the hard limit, not the 90 that
90% of the soft limit would give. -/
theorem fdLimit_uses_hard_limit :
    newFilerFdLimit 0 { cur := 100, max := 200 } = 180
    ∧ newFilerFdLimit 0 { cur := 100, max := 200 } ≠ 100 - 100 / 10
    ∧ newFilerFdLimit 0 { cur := 0, max := 0 } = 90 := by
  decide

/-- Claim C6: when every OS open attempt fails outright, TempFile keeps
the admission token it acquired on entry (count goes 0 to 1), while Open
and OpenFile release theirs (count stays 0). -/
theorem tempFile_failure_leaks_token :
    (filerTempFile { tokens := 0 } (fun _ => OpenRes.fail)).1.tokens = 1
    ∧ (filerOpen { tokens := 0 } false).1.tokens = 0
    ∧ (filerOpenFile { tokens := 0 } false).1.tokens = 0 := by
  refine ⟨rfl, rfl, rfl⟩

/-- Claim C7: starting from the valid seed 1 with `seq = 0`, one rand
call performs the Park-Miller step 1 * 48271 mod (2^31 - 1) = 48271 with
no reseed, and 101 consecutive draws perform 0 reseeds in total — the
source never increments `seq`, so the after-100-draws reseed the claim
requires cannot occur. -/
theorem no_reseed_within_101_draws :
    randCall (fun _ => 0) 1 { seed := 1, seq := 0 }
      = some ({ seed := 48271, seq := 0 }, 48271, 0)
    ∧ (randDraws (fun _ => 0) 1 101 { seed := 1, seq := 0 }).map Prod.snd = some 0 := by
  exact ⟨rfl, rfl⟩

/-- Claim C8: for a fetcher that completed via a cache hit (no recorded
HTTP response, no error) with a 5-byte body, the response handed to the
caller is the zero http.Response with the request and body section
attached: status code 0 and a nil header map, not the claimed status 200
with empty headers. -/
theorem cache_hit_response_is_zero_valued :
    fetcherResponse none none 5 7
      = Except.ok { statusCode := 0, header := none, request := some 7,
                    bodyLo := 0, bodyHi := 5 } := by
  rfl

/-! Helper lemmas for the single-flight registry. -/

theorem regFind_regIncr (es : List (Nat × Nat × Nat)) (url : Nat) :
    regFind (regIncr es url) url = (regFind es url).map (fun p => (p.1, p.2 + 1)) := by
  induction es with
  | nil => rfl
  | cons e es ih =>
    obtain ⟨u, fid, r⟩ := e
    by_cases h : u = url <;> simp [regFind, regIncr, h, ih]

theorem doN_found (url fid : Nat) :
    ∀ (n : Nat) (st : Registry) (k : Nat), regFind st.entries url = some (fid, k) →
      (doN st url n).2.1 = List.replicate n fid
      ∧ (doN st url n).2.2 = 0
      ∧ regFind (doN st url n).1.entries url = some (fid, k + n) := by
  intro n
  induction n with
  | zero =>
    intro st k h
    simpa [doN] using h
  | succ m ih =>
    intro st k h
    have hstep : doLocked st url = ({ st with entries := regIncr st.entries url }, fid, false) := by
      simp [doLocked, h]
    have hfind : regFind (regIncr st.entries url) url = some (fid, k + 1) := by
      simp [regFind_regIncr, h]
    obtain ⟨h1, h2, h3⟩ := ih { st with entries := regIncr st.entries url } (k + 1) hfind
    refine ⟨?_, ?_, ?_⟩
    · simp [doN, hstep, h1, List.replicate_succ]
    · simp [doN, hstep, h2]
    · simpa [doN, hstep, Nat.add_assoc, Nat.add_comm 1 m] using h3

/-- Claim C9: single-flight — when no fetcher for the url exists yet and
`n ≥ 1` callers enter Do for it before any cleanup, exactly one fetch
task is launched, the transport is invoked exactly once for the window
(provided the cache phase neither hits nor errors), every caller waits on
the same fetcher (hence a view over the same BufferFile), and the
fetcher's waiter count ends at `n`. -/
theorem single_flight (st : Registry) (url : Nat) (n : Nat) (o : CacheOutcome)
    (hfresh : regFind st.entries url = none) (hn : 1 ≤ n)
    (ho : o = CacheOutcome.disabled ∨ o = CacheOutcome.miss) :
    (doN st url n).2.2 = 1
    ∧ episodeTransportCalls (doN st url n).2.2 o = 1
    ∧ (doN st url n).2.1 = List.replicate n st.nextId
    ∧ regFind (doN st url n).1.entries url = some (st.nextId, n) := by
  obtain ⟨m, rfl⟩ : ∃ m, n = m + 1 := ⟨n - 1, by omega⟩
  have hstep : doLocked st url =
      ({ entries := (url, st.nextId, 1) :: st.entries, nextId := st.nextId + 1 },
       st.nextId, true) := by
    simp [doLocked, hfresh]
  have hfind : regFind ((url, st.nextId, 1) :: st.entries) url = some (st.nextId, 1) := by
    simp [regFind]
  obtain ⟨h1, h2, h3⟩ :=
    doN_found url st.nextId m
      { entries := (url, st.nextId, 1) :: st.entries, nextId := st.nextId + 1 } 1 hfind
  have hcre : (doN st url (m + 1)).2.2 = 1 := by
    simp [doN, hstep, h2]
  refine ⟨hcre, ?_, ?_, ?_⟩
  · rcases ho with rfl | rfl <;> simp [hcre, episodeTransportCalls, fetchTransportCalls]
  · simp [doN, hstep, h1, List.replicate_succ]
  · simpa [doN, hstep, Nat.add_comm 1 m] using h3

/-- Witness for the single-flight theorem: two callers for url 0 on an
empty registry with the cache missing. -/
theorem single_flight_witness :
    regFind (Registry.mk [] 0).entries 0 = none
    ∧ ((doN (Registry.mk [] 0) 0 2).2.2 = 1
       ∧ episodeTransportCalls (doN (Registry.mk [] 0) 0 2).2.2 CacheOutcome.miss = 1
       ∧ (doN (Registry.mk [] 0) 0 2).2.1 = List.replicate 2 (Registry.mk [] 0).nextId
       ∧ regFind (doN (Registry.mk [] 0) 0 2).1.entries 0
           = some ((Registry.mk [] 0).nextId, 2)) :=
  ⟨rfl, single_flight (Registry.mk [] 0) 0 2 CacheOutcome.miss rfl (by decide)
          (Or.inr rfl)⟩

/-! Helper lemmas for the body-close state machine. -/

theorem frcClose_reqs_zero (st : FetchCloseState) (ha : st.attached = true)
    (h0 : st.reqs = 0) :
    frcClose st = ({ st with attached := false }, some Err.canceled) := by
  simp [frcClose, ha, reqCleanup, h0]

theorem frcClose_reqs_pos (st : FetchCloseState) (ha : st.attached = true)
    (h0 : st.reqs ≠ 0) (h1 : st.reqs - 1 ≠ 0) :
    frcClose st = ({ st with attached := false, reqs := st.reqs - 1 }, none) := by
  simp [frcClose, ha, reqCleanup, reqCleanupLocked, h0, h1]

theorem frcClose_reqs_one (st : FetchCloseState) (ha : st.attached = true)
    (h1 : st.reqs = 1) :
    frcClose st =
      (if st.others = 0 ∧ st.shutdown = true then
         ({ st with attached := false, reqs := 0, bfClosed := true, inRegistry := false,
                    shutdownDone := true }, none)
       else
         ({ st with attached := false, reqs := 0, bfClosed := true,
                    inRegistry := false }, none)) := by
  simp [frcClose, ha, reqCleanup, reqCleanupLocked, h1]
  split <;> simp

/-- Claim C10: closing a response body is idempotent at the public
interface — the first Close decrements `reqs` by exactly one when it is
positive (closing the BufferFile and leaving the registry when it reaches
0) or returns Canceled when a forced shutdown already zeroed it; a second
Close of the same body returns nil and changes nothing, and `reqs` never
becomes negative. -/
theorem body_close_idempotent (st : FetchCloseState)
    (ha : st.attached = true) (hr : 0 ≤ st.reqs) :
    (st.reqs = 0 → frcClose st = ({ st with attached := false }, some Err.canceled))
    ∧ (st.reqs ≠ 0 → (frcClose st).2 = none ∧ (frcClose st).1.reqs = st.reqs - 1)
    ∧ (st.reqs = 1 → (frcClose st).1.bfClosed = true ∧ (frcClose st).1.inRegistry = false)
    ∧ (1 < st.reqs → (frcClose st).1.bfClosed = st.bfClosed
        ∧ (frcClose st).1.inRegistry = st.inRegistry)
    ∧ 0 ≤ (frcClose st).1.reqs
    ∧ frcClose (frcClose st).1 = ((frcClose st).1, none) := by
  refine ⟨fun h0 => frcClose_reqs_zero st ha h0, ?_, ?_, ?_, ?_, ?_⟩
  · intro h0
    by_cases h1 : st.reqs = 1
    · rw [frcClose_reqs_one st ha h1]
      split <;> exact ⟨rfl, by simp [h1]⟩
    · rw [frcClose_reqs_pos st ha h0 (by omega)]
      exact ⟨rfl, rfl⟩
  · intro h1
    rw [frcClose_reqs_one st ha h1]
    split <;> exact ⟨rfl, rfl⟩
  · intro hgt
    rw [frcClose_reqs_pos st ha (by omega) (by omega)]
    exact ⟨rfl, rfl⟩
  · by_cases h0 : st.reqs = 0
    · rw [frcClose_reqs_zero st ha h0]
      simpa using hr
    · by_cases h1 : st.reqs = 1
      · rw [frcClose_reqs_one st ha h1]
        split <;> simp
      · rw [frcClose_reqs_pos st ha h0 (by omega)]
        simp
        omega
  · by_cases h0 : st.reqs = 0
    · rw [frcClose_reqs_zero st ha h0]
      simp [frcClose]
    · by_cases h1 : st.reqs = 1
      · rw [frcClose_reqs_one st ha h1]
        split <;> simp [frcClose]
      · rw [frcClose_reqs_pos st ha h0 (by omega)]
        simp [frcClose]

/-- Witness for the body-close idempotence theorem at a concrete state
with one outstanding body. -/
theorem body_close_idempotent_witness :
    (FetchCloseState.mk true 1 false true 0 false false).attached = true
    ∧ 0 ≤ (FetchCloseState.mk true 1 false true 0 false false).reqs
    ∧ ((FetchCloseState.mk true 1 false true 0 false false).reqs = 1 →
        (frcClose (FetchCloseState.mk true 1 false true 0 false false)).1.bfClosed = true
        ∧ (frcClose (FetchCloseState.mk true 1 false true 0 false false)).1.inRegistry
            = false) :=
  ⟨rfl, by decide,
   (body_close_idempotent (FetchCloseState.mk true 1 false true 0 false false) rfl
      (by decide)).2.2.1⟩

end Iox
